import Mathlib

/-!
Verification of the Ghost-Story-Generator collaborative-story backend and
client offline machinery, as a shallow embedding in Lean.

Embedded components (translated from the TypeScript source):
* `StoryManager` (backend/src/services/StoryManager.ts): the session registry,
  segment log (append + stable sort by timestamp), participants, export.
* content validation (backend/src/utils/validation.ts).
* the websocket gateway handlers (backend/src/routes/websocket.ts), modelled as
  a deterministic step function on a gateway state; socket.io emits are
  recorded in an ordered emission log `(recipient, event)`.
* `OfflineQueue` and `ReconnectionManager` (frontend/src/services/offlineQueue.ts).

Modelling conventions:
* JS `Date` values are `Int` milliseconds (`Date.getTime()`); `Date` survives a
  JSON round trip to the same millisecond, so storage keeps the `Int` directly.
* `randomUUID()` is modelled by a fresh-counter id generator: the only property
  the code relies on is freshness of ids.
* `Math.random()` outcomes and the external AI text generator are explicit
  oracle inputs (a rational in `[0,1)`, resp. an `Option HorrorElement`).
* `Array.prototype.sort` with comparator `(a,b) => a.timestamp - b.timestamp`
  is a stable sort (ES2019); it is embedded as `List.insertionSort`, which is
  extensionally the same stable sort.
* a thrown JS `Error` is `Except.error`; socket.io `io.to(room).emit` reaches
  every member of the room including the sender, `socket.to(room).emit`
  excludes the sender, `socket.emit` reaches only that connection.
-/

namespace GhostStory

/-- Contributor type of a segment (shared/types.ts). -/
inductive ContributorType
  | user
  | ai
deriving DecidableEq

/-- StorySegment from shared/types.ts; `timestamp` is Date.getTime() in ms. -/
structure StorySegment where
  id : String
  content : String
  contributorId : String
  contributorType : ContributorType
  timestamp : Int
  moodTags : List String
deriving DecidableEq

/-- Participant from shared/types.ts. -/
structure Participant where
  id : String
  name : String
  joinedAt : Int
deriving DecidableEq

/-- StorySession from shared/types.ts. -/
structure StorySession where
  id : String
  title : String
  startingPrompt : Option String
  participants : List Participant
  segments : List StorySegment
  createdAt : Int
  lastActivityAt : Int
deriving DecidableEq

/-- Ordering used by StoryManager.addSegment's comparator
`(a, b) => a.timestamp.getTime() - b.timestamp.getTime()`. -/
def segLE (a b : StorySegment) : Prop :=
  a.timestamp ≤ b.timestamp

instance : DecidableRel segLE :=
  fun a b => inferInstanceAs (Decidable (a.timestamp ≤ b.timestamp))

instance : IsTotal StorySegment segLE :=
  ⟨fun a b => Int.le_total a.timestamp b.timestamp⟩

instance : IsTrans StorySegment segLE :=
  ⟨fun _ _ _ hab hbc => le_trans hab hbc⟩

/-- The stable sort performed by `session.segments.sort((a, b) => a.timestamp -
b.timestamp)`; ES2019 `Array.prototype.sort` is stable, and `insertionSort` is
extensionally the same stable sort. -/
def sortSegments (l : List StorySegment) : List StorySegment :=
  l.insertionSort segLE

/-- Effect of StoryManager.addSegment on the segment array: push then stable
sort by timestamp (StoryManager.ts lines 246-248). -/
def addSegmentToLog (log : List StorySegment) (seg : StorySegment) : List StorySegment :=
  sortSegments (log ++ [seg])

/-- The in-memory session map of StoryManager (`Map<string, StorySession>`),
as an association list in insertion order. -/
structure StoryManager where
  sessions : List (String × StorySession)
deriving DecidableEq

/-- StoryManager.getSession: `this.sessions.get(sessionId)`. -/
def StoryManager.getSession (m : StoryManager) (sessionId : String) : Option StorySession :=
  (m.sessions.find? (fun p => p.1 == sessionId)).map (fun p => p.2)

/-- Replace the stored session under an existing key (in-place object mutation
of the session found in the map). -/
def StoryManager.setSession (m : StoryManager) (sessionId : String) (s : StorySession) :
    StoryManager :=
  ⟨m.sessions.map (fun p => if p.1 == sessionId then (p.1, s) else p)⟩

/-- StoryManager.createSession; the fresh `randomUUID()` is supplied by the
caller (the gateway model draws it from its fresh-id counter), `now` is the
current time used for `createdAt`/`lastActivityAt`. -/
def StoryManager.createSession (m : StoryManager) (id title : String)
    (startingPrompt : Option String) (now : Int) : StoryManager × StorySession :=
  let session : StorySession :=
    { id := id, title := title, startingPrompt := startingPrompt,
      participants := [], segments := [], createdAt := now, lastActivityAt := now }
  (⟨m.sessions ++ [(id, session)]⟩, session)

/-- StoryManager.addParticipant: silent no-op on a missing session; de-dup by
participant name; refreshes `lastActivityAt`. -/
def StoryManager.addParticipant (m : StoryManager) (sessionId : String)
    (p : Participant) (now : Int) : StoryManager :=
  match m.getSession sessionId with
  | none => m
  | some s =>
      let s1 :=
        if s.participants.any (fun q => q.name == p.name) then s
        else { s with participants := s.participants ++ [p] }
      m.setSession sessionId { s1 with lastActivityAt := now }

/-- StoryManager.addSegment: silent no-op on a missing session; push + stable
sort by timestamp; refreshes `lastActivityAt`. -/
def StoryManager.addSegment (m : StoryManager) (sessionId : String)
    (seg : StorySegment) (now : Int) : StoryManager :=
  match m.getSession sessionId with
  | none => m
  | some s =>
      m.setSession sessionId
        { s with segments := addSegmentToLog s.segments seg, lastActivityAt := now }

/-- Export format argument of StoryManager.exportSession. -/
inductive ExportFormat
  | text
  | html
deriving DecidableEq

/-- StoryManager.exportAsText. `toString` of the `Int` timestamp abstracts the
ISO rendering of the date (injective either way). -/
def StoryManager.exportAsText (s : StorySession) : String :=
  let header :=
    s.title ++ "\n" ++ "Created: " ++ toString s.createdAt ++ "\n" ++
      "Participants: " ++ String.intercalate ", " (s.participants.map (fun p => p.name)) ++
      "\n\n"
  s.segments.foldl
    (fun acc seg =>
      let name :=
        match s.participants.find? (fun p => p.id == seg.contributorId) with
        | some p => p.name
        | none => seg.contributorId
      acc ++ "[" ++ name ++ "] " ++ seg.content ++ "\n\n")
    header

/-- StoryManager.exportAsHtml (markup abbreviated to the parts that vary per
segment; the css boilerplate is a fixed string irrelevant to every claim). -/
def StoryManager.exportAsHtml (s : StorySession) : String :=
  let header :=
    "<html><title>" ++ s.title ++ "</title><h1>" ++ s.title ++ "</h1>" ++
      "Participants: " ++ String.intercalate ", " (s.participants.map (fun p => p.name))
  let body :=
    s.segments.foldl
      (fun acc seg =>
        let name :=
          match s.participants.find? (fun p => p.id == seg.contributorId) with
          | some p => p.name
          | none =>
              match seg.contributorType with
              | ContributorType.ai => "AI Co-Author"
              | ContributorType.user => seg.contributorId
        let cls :=
          match seg.contributorType with
          | ContributorType.ai => "ai-segment"
          | ContributorType.user => "user-segment"
        acc ++ "<div class=" ++ cls ++ ">" ++ name ++ ": " ++ seg.content ++ "</div>")
      header
  body ++ "</html>"

/-- StoryManager.exportSession; `throw new Error('Session not found')` on a
missing session id is modelled as `Except.error`. -/
def StoryManager.exportSession (m : StoryManager) (sessionId : String)
    (format : ExportFormat) : Except String String :=
  match m.getSession sessionId with
  | none => Except.error "Session not found"
  | some s =>
      match format with
      | ExportFormat.text => Except.ok (StoryManager.exportAsText s)
      | ExportFormat.html => Except.ok (StoryManager.exportAsHtml s)

/-! Content validation (backend/src/utils/validation.ts). -/

/-- PROFANITY_LIST from validation.ts. -/
def PROFANITY_LIST : List String :=
  ["fuck", "shit", "damn", "bitch", "ass", "bastard", "crap", "piss",
   "cock", "dick", "pussy", "cunt", "whore", "slut", "fag", "nigger", "retard"]

/-- MAX_SEGMENT_LENGTH from validation.ts. -/
def MAX_SEGMENT_LENGTH : Nat := 500

/-- MIN_SEGMENT_LENGTH from validation.ts. -/
def MIN_SEGMENT_LENGTH : Nat := 1

/-- Whitespace characters stripped by JS `String.prototype.trim` (the ASCII
ones; the exotic unicode space classes are not exercised by the code). -/
def jsWhitespace (c : Char) : Bool :=
  c = ' ' || c = '\t' || c = '\n' || c = '\r' || c = '\x0b' || c = '\x0c'

/-- JS `String.prototype.trim` on a character list. -/
def trimChars (l : List Char) : List Char :=
  ((l.dropWhile jsWhitespace).reverse.dropWhile jsWhitespace).reverse

/-- JS `content.trim()`. -/
def trimStr (s : String) : String :=
  String.mk (trimChars s.data)

/-- validation.ts hasContent: `content.trim().length > 0`. -/
def hasContent (content : String) : Bool :=
  (trimStr content).data.length > 0

/-- JS regex word character class `\w` = `[A-Za-z0-9_]`, as used by the `\b`
boundaries in containsProfanity. -/
def isWordChar (c : Char) : Bool :=
  (c.isAlpha || c.isDigit) || c = '_'

/-- Whether the word `w` occurs in `next` at the current position or later,
with `\b` boundaries on both sides; `prev` is the character preceding the
current position (`none` at the start of the string). -/
def hasWordOccur (w : List Char) : Option Char → List Char → Bool
  | prev, [] =>
      decide (w = []) &&
        (match prev with
         | none => true
         | some c => !isWordChar c)
  | prev, c :: rest =>
      (w.isPrefixOf (c :: rest) &&
        (match prev with
         | none => true
         | some p => !isWordChar p) &&
        (match (c :: rest).drop w.length with
         | [] => true
         | d :: _ => !isWordChar d)) ||
      hasWordOccur w (some c) rest

/-- validation.ts containsProfanity: lowercases the content, then tests each
profanity word with the regex `\b word \b` (case-insensitively, which is
absorbed by the lowercasing since every listed word is lowercase). -/
def containsProfanity (content : String) : Bool :=
  let lower := content.data.map Char.toLower
  PROFANITY_LIST.any (fun w => hasWordOccur w.data none lower)

/-- Drop through the first `>` in the list (the end of an html tag). -/
def dropThroughGt (l : List Char) : List Char :=
  (l.dropWhile (fun c => c != '>')).drop 1

/-- Recursion worker for stripTags; the fuel argument (bounded below by the
list length, which strictly decreases at every recursive call) makes the
recursion structural, so the function reduces definitionally. -/
def stripTagsGo : Nat → List Char → List Char
  | 0, _ => []
  | _ + 1, [] => []
  | fuel + 1, c :: rest =>
      if c = '<' then
        if rest.contains '>' then stripTagsGo fuel (dropThroughGt rest)
        else c :: rest
      else c :: stripTagsGo fuel rest

/-- Global replacement of the regex `<[^>]*>` by the empty string: each match
runs from a `<` to the first following `>`; a `<` with no later `>` matches
nothing and is kept (together with everything after it, which then contains no
`>` either, hence no further match). -/
def stripTags (l : List Char) : List Char :=
  stripTagsGo l.length l

/-- validation.ts sanitizeInput: strip `<...>` tags, then the script-tag
regex pass (a no-op once every `<`-to-`>` span is gone: any remaining `<` has
no `>` after it, and `</script>` needs one), then trim. -/
def sanitizeInput (input : String) : String :=
  String.mk (trimChars (stripTags input.data))

/-- validation.ts isValidLength: `content.trim().length` within bounds. -/
def isValidLength (content : String) : Bool :=
  let length := (trimStr content).data.length
  MIN_SEGMENT_LENGTH ≤ length && length ≤ MAX_SEGMENT_LENGTH

/-- Result record of validation.ts validateSegment. -/
structure ValidationResult where
  valid : Bool
  error : Option String
  sanitized : Option String
deriving DecidableEq

/-- validation.ts validateSegment. -/
def validateSegment (content : String) : ValidationResult :=
  if !hasContent content then
    { valid := false, error := some "Content cannot be empty or only whitespace",
      sanitized := none }
  else
    let sanitized := sanitizeInput content
    if !isValidLength sanitized then
      { valid := false,
        error := some "Content must be between 1 and 500 characters",
        sanitized := none }
    else if containsProfanity sanitized then
      { valid := false, error := some "Content contains inappropriate language",
        sanitized := none }
    else
      { valid := true, error := none, sanitized := some sanitized }

/-! OfflineQueue (frontend/src/services/offlineQueue.ts). localStorage is an
`Option` of the decoded entry list: JSON round-trips the string fields and the
retry counter exactly, and a `Date` serialized to its ISO string parses back to
the same millisecond instant, so storage keeps decoded entries. -/

/-- QueuedSegment from offlineQueue.ts; `timestamp` is in ms. -/
structure QueuedSegment where
  sessionId : String
  content : String
  timestamp : Int
  retryCount : Nat
deriving DecidableEq

/-- maxRetries from offlineQueue.ts. -/
def maxRetries : Nat := 3

/-- An OfflineQueue instance together with the localStorage slot under its
storage key (`none` = key absent). -/
structure OQState where
  queue : List QueuedSegment
  storage : Option (List QueuedSegment)
deriving DecidableEq

/-- The match predicate used by dequeue/incrementRetry: identity is the
`(sessionId, timestamp)` pair. -/
def entryMatches (sessionId : String) (timestamp : Int) (e : QueuedSegment) : Bool :=
  e.sessionId == sessionId && e.timestamp == timestamp

/-- OfflineQueue.saveToStorage: serialize the whole queue. -/
def saveQ (st : OQState) : OQState :=
  { st with storage := some st.queue }

/-- OfflineQueue.loadFromStorage / the constructor: decode the stored queue,
empty when the key is absent. -/
def loadQueue (storage : Option (List QueuedSegment)) : List QueuedSegment :=
  match storage with
  | none => []
  | some l => l

/-- Constructing `new OfflineQueue()` against a given storage. -/
def newOfflineQueue (storage : Option (List QueuedSegment)) : OQState :=
  { queue := loadQueue storage, storage := storage }

/-- OfflineQueue.enqueue. -/
def OQState.enqueue (st : OQState) (sessionId content : String) (now : Int) : OQState :=
  saveQ { st with
    queue := st.queue ++
      [{ sessionId := sessionId, content := content, timestamp := now, retryCount := 0 }] }

/-- OfflineQueue.dequeue: remove every entry matching the pair, then persist. -/
def OQState.dequeue (st : OQState) (sessionId : String) (timestamp : Int) : OQState :=
  saveQ { st with queue := st.queue.filter (fun e => !entryMatches sessionId timestamp e) }

/-- Increment the retry counter of the first matching entry (JS `find` returns
a reference into the array; `item.retryCount++` mutates it in place). -/
def bumpFirst (sessionId : String) (timestamp : Int) :
    List QueuedSegment → List QueuedSegment
  | [] => []
  | e :: rest =>
      if entryMatches sessionId timestamp e then
        { e with retryCount := e.retryCount + 1 } :: rest
      else e :: bumpFirst sessionId timestamp rest

/-- OfflineQueue.incrementRetry: `find` the entry, bump its counter; if the new
count reaches maxRetries, dequeue it and report false; else persist and report
true; report false untouched when no entry matches. -/
def OQState.incrementRetry (st : OQState) (sessionId : String) (timestamp : Int) :
    Bool × OQState :=
  match st.queue.find? (entryMatches sessionId timestamp) with
  | none => (false, st)
  | some e =>
      let st1 : OQState := { st with queue := bumpFirst sessionId timestamp st.queue }
      if e.retryCount + 1 ≥ maxRetries then
        (false, st1.dequeue sessionId timestamp)
      else
        (true, saveQ st1)

/-- OfflineQueue.clearSession. -/
def OQState.clearSession (st : OQState) (sessionId : String) : OQState :=
  saveQ { st with queue := st.queue.filter (fun e => !(e.sessionId == sessionId)) }

/-- OfflineQueue.clearAll. -/
def OQState.clearAll (st : OQState) : OQState :=
  saveQ { st with queue := [] }

/-- One mutating OfflineQueue call (timestamps of enqueues supplied as data). -/
inductive QOp
  | enqueue (sessionId content : String) (now : Int)
  | dequeue (sessionId : String) (timestamp : Int)
  | incrementRetry (sessionId : String) (timestamp : Int)
  | clearSession (sessionId : String)
  | clearAll
deriving DecidableEq

/-- Apply one OfflineQueue call to the state. -/
def applyQOp (st : OQState) : QOp → OQState
  | QOp.enqueue sid content now => st.enqueue sid content now
  | QOp.dequeue sid ts => st.dequeue sid ts
  | QOp.incrementRetry sid ts => (st.incrementRetry sid ts).2
  | QOp.clearSession sid => st.clearSession sid
  | QOp.clearAll => st.clearAll

/-- Apply a sequence of OfflineQueue calls. -/
def applyQOps (st : OQState) (ops : List QOp) : OQState :=
  ops.foldl applyQOp st

/-! ReconnectionManager (frontend/src/services/offlineQueue.ts). -/

/-- baseDelay from ReconnectionManager (1 second). -/
def rmBaseDelay : ℚ := 1000

/-- maxDelay from ReconnectionManager (30 seconds). -/
def rmMaxDelay : ℚ := 30000

/-- maxAttempts from ReconnectionManager. -/
def rmMaxAttempts : Nat := 10

/-- The backoff state of a ReconnectionManager (the pending-timer handle is
not part of the delay computation). -/
structure RMState where
  attempt : Nat
deriving DecidableEq

/-- ReconnectionManager.getNextDelay, with the `Math.random()` draw `r` (a
value in `[0,1)`) passed explicitly:
exponential `baseDelay * 2 ^ attempt`, capped at maxDelay, jittered by
`capped * 0.25 * (r * 2 - 1)`, clamped at 0; increments `attempt`. -/
def RMState.getNextDelay (st : RMState) (r : ℚ) : ℚ × RMState :=
  let exponentialDelay := rmBaseDelay * 2 ^ st.attempt
  let cappedDelay := min exponentialDelay rmMaxDelay
  let jitter := cappedDelay * (1 / 4) * (r * 2 - 1)
  let delay := max 0 (cappedDelay + jitter)
  (delay, { attempt := st.attempt + 1 })

/-- The un-jittered component of the delay at a given attempt counter:
`min(baseDelay * 2 ^ attempt, maxDelay)`. -/
def cappedComponent (attempt : Nat) : ℚ :=
  min (rmBaseDelay * 2 ^ attempt) rmMaxDelay

/-- Repeated getNextDelay calls, one per random draw; returns the delays in
call order and the final state. -/
def runDelays (st : RMState) : List ℚ → List ℚ × RMState
  | [] => ([], st)
  | r :: rs =>
      let (d, st1) := st.getNextDelay r
      let (ds, st2) := runDelays st1 rs
      (d :: ds, st2)

/-! Websocket gateway (backend/src/routes/websocket.ts), modelled as a
deterministic step function: the socket.io event loop handles one inbound
event at a time, and every emit is appended to an ordered emission log of
`(recipient connection, event)` pairs. -/

/-- HorrorElement from shared/types.ts (result of the AI generation call). -/
structure HorrorElement where
  content : String
  intensity : Nat
  tags : List String
deriving DecidableEq

/-- Events emitted by the gateway to a connection; payloads are snapshots of
the mutable objects at emit time (socket.io serializes at emit). -/
inductive GWEvent
  | sessionCreated (s : StorySession)
  | sessionUpdated (s : StorySession)
  | participantJoined (p : Participant)
  | segmentAdded (seg : StorySegment)
  | segmentAcknowledged (segmentId : String)
  | sessionReconnected (sessionId : String)
  | sessionExported (sessionId : String) (content : String)
  | errorEvent (code : String)
deriving DecidableEq

/-- Gateway state: the story manager, socket.io room memberships (a
connection joins a room and never leaves while connected), the
`socket.data.participantId` assignments, the ordered emission log, the
fresh-id counter standing in for randomUUID, and a counter of calls made to
the external AI generator. -/
structure GWState where
  manager : StoryManager
  rooms : List (String × String)
  connData : List (String × String)
  emits : List (String × GWEvent)
  nextId : Nat
  aiInvocations : Nat
deriving DecidableEq

/-- socket.join: room membership is a set, insertion-ordered. -/
def joinRoom (rooms : List (String × String)) (conn sessionId : String) :
    List (String × String) :=
  if rooms.contains (conn, sessionId) then rooms else rooms ++ [(conn, sessionId)]

/-- The members of a session's room, in join order. -/
def roomMembers (rooms : List (String × String)) (sessionId : String) : List String :=
  (rooms.filter (fun p => p.2 == sessionId)).map (fun p => p.1)

/-- socket.emit: emit to one connection. -/
def emitTo (g : GWState) (conn : String) (ev : GWEvent) : GWState :=
  { g with emits := g.emits ++ [(conn, ev)] }

/-- io.to(room).emit: emit to every member of the room, including the sender
when it has joined the room. -/
def emitRoom (g : GWState) (sessionId : String) (ev : GWEvent) : GWState :=
  { g with emits := g.emits ++ (roomMembers g.rooms sessionId).map (fun c => (c, ev)) }

/-- socket.to(room).emit: emit to every member of the room except the sender. -/
def emitRoomExcept (g : GWState) (sessionId sender : String) (ev : GWEvent) : GWState :=
  { g with
    emits := g.emits ++
      ((roomMembers g.rooms sessionId).filter (fun c => !(c == sender))).map
        (fun c => (c, ev)) }

/-- Set `socket.data.participantId` for a connection. -/
def setParticipantId (connData : List (String × String)) (conn pid : String) :
    List (String × String) :=
  (conn, pid) :: connData.filter (fun p => !(p.1 == conn))

/-- Read `socket.data.participantId`; `socket.data.participantId || socket.id`
falls back to the socket id when unset. -/
def participantIdOf (connData : List (String × String)) (conn : String) : String :=
  match connData.find? (fun p => p.1 == conn) with
  | some p => p.2
  | none => conn

/-- One inbound websocket request. `now` values are the wall-clock instants of
each `new Date()` in the handler; `aiOutcome` is the outcome of the external
`generateHorrorElement` call if the handler makes one (`none` = the promise
rejected), with `aiNow` the time of the AI segment's `new Date()`. -/
inductive Request
  | sessionCreate (conn title : String) (startingPrompt : Option String)
      (userName : String) (now : Int)
  | sessionJoin (conn sessionId userName : String) (now : Int)
  | segmentAdd (conn sessionId content : String) (now : Int)
      (aiOutcome : Option HorrorElement) (aiNow : Int)
  | sessionReconnect (conn sessionId participantId : String)
  | sessionExport (conn sessionId : String) (format : ExportFormat)
deriving DecidableEq

/-- `userName || 'Anonymous'`. -/
def displayName (userName : String) : String :=
  if userName == "" then "Anonymous" else userName

/-- The fresh id drawn from the counter (stands in for randomUUID). -/
def freshId (n : Nat) : String :=
  "id-" ++ toString n

/-- The user segment object built by the segment:add handler (websocket.ts
lines 176-183), from the gateway state at the moment of the request. -/
def mkUserSegment (g : GWState) (conn content : String) (now : Int) : StorySegment :=
  { id := freshId g.nextId,
    content := (validateSegment content).sanitized.getD content,
    contributorId := participantIdOf g.connData conn,
    contributorType := ContributorType.user,
    timestamp := now,
    moodTags := [] }

/-- The AI segment object built on a successful generation (websocket.ts
lines 217-224). -/
def mkAiSegment (n : Nat) (h : HorrorElement) (aiNow : Int) : StorySegment :=
  { id := freshId n,
    content := h.content,
    contributorId := "ai-coauthor",
    contributorType := ContributorType.ai,
    timestamp := aiNow,
    moodTags := h.tags }

/-- The count of user-contributed segments
(`segments.filter(s => s.contributorType === 'user').length`). -/
def userSegmentCount (l : List StorySegment) : Nat :=
  (l.filter (fun s => s.contributorType == ContributorType.user)).length

/-- The AI co-author trigger condition of the segment:add handler
(`userSegments.length > 0 && userSegments.length % 3 === 0`). -/
def aiTriggerFires (l : List StorySegment) : Bool :=
  decide (userSegmentCount l > 0) && userSegmentCount l % 3 == 0

/-- One gateway event-handler execution, mirroring setupWebSocketHandlers. -/
def step (g : GWState) : Request → GWState
  | Request.sessionCreate conn title startingPrompt userName now =>
      let sid := freshId g.nextId
      let g := { g with nextId := g.nextId + 1 }
      let m := (g.manager.createSession sid title startingPrompt now).1
      let p : Participant := { id := conn, name := displayName userName, joinedAt := now }
      let m := m.addParticipant sid p now
      let g := { g with
        manager := m,
        rooms := joinRoom g.rooms conn sid,
        connData := setParticipantId g.connData conn conn }
      match m.getSession sid with
      | some s => emitTo g conn (GWEvent.sessionCreated s)
      | none => g
  | Request.sessionJoin conn sessionId userName now =>
      match g.manager.getSession sessionId with
      | none => emitTo g conn (GWEvent.errorEvent "SESSION_NOT_FOUND")
      | some _ =>
          let p : Participant :=
            { id := conn, name := displayName userName, joinedAt := now }
          let m := g.manager.addParticipant sessionId p now
          let g := { g with
            manager := m,
            rooms := joinRoom g.rooms conn sessionId,
            connData := setParticipantId g.connData conn conn }
          match m.getSession sessionId with
          | none => g
          | some s =>
              let g := emitTo g conn (GWEvent.sessionUpdated s)
              emitRoomExcept g sessionId conn (GWEvent.participantJoined p)
  | Request.segmentAdd conn sessionId content now aiOutcome aiNow =>
      let vr := validateSegment content
      if vr.valid = false then
        emitTo g conn (GWEvent.errorEvent "CONTENT_VALIDATION_ERROR")
      else
        match g.manager.getSession sessionId with
        | none => emitTo g conn (GWEvent.errorEvent "SESSION_NOT_FOUND")
        | some _ =>
            let seg := mkUserSegment g conn content now
            let g := { g with nextId := g.nextId + 1 }
            let g := { g with manager := g.manager.addSegment sessionId seg now }
            let g := emitRoom g sessionId (GWEvent.segmentAdded seg)
            let g := emitTo g conn (GWEvent.segmentAdded seg)
            let g := emitTo g conn (GWEvent.segmentAcknowledged seg.id)
            match g.manager.getSession sessionId with
            | none => g
            | some updatedSession =>
                if aiTriggerFires updatedSession.segments then
                  let g := { g with aiInvocations := g.aiInvocations + 1 }
                  match aiOutcome with
                  | some h =>
                      let aiSeg := mkAiSegment g.nextId h aiNow
                      let g := { g with nextId := g.nextId + 1 }
                      let g :=
                        { g with manager := g.manager.addSegment sessionId aiSeg aiNow }
                      emitRoom g sessionId (GWEvent.segmentAdded aiSeg)
                  | none => emitRoom g sessionId (GWEvent.errorEvent "AI_GENERATION_ERROR")
                else g
  | Request.sessionReconnect conn sessionId participantId =>
      match g.manager.getSession sessionId with
      | none => emitTo g conn (GWEvent.errorEvent "SESSION_NOT_FOUND")
      | some s =>
          let g := { g with
            rooms := joinRoom g.rooms conn sessionId,
            connData := setParticipantId g.connData conn participantId }
          let g := emitTo g conn (GWEvent.sessionUpdated s)
          emitTo g conn (GWEvent.sessionReconnected sessionId)
  | Request.sessionExport conn sessionId format =>
      match g.manager.getSession sessionId with
      | none => emitTo g conn (GWEvent.errorEvent "SESSION_NOT_FOUND")
      | some _ =>
          match g.manager.exportSession sessionId format with
          | Except.ok content =>
              emitTo g conn (GWEvent.sessionExported sessionId content)
          | Except.error _ =>
              emitTo g conn (GWEvent.errorEvent "SESSION_EXPORT_ERROR")

/-- The empty gateway (server just started). -/
def initGW : GWState :=
  { manager := ⟨[]⟩, rooms := [], connData := [], emits := [], nextId := 0,
    aiInvocations := 0 }

/-- Process a list of inbound requests in arrival order. -/
def runGW (g : GWState) (rs : List Request) : GWState :=
  rs.foldl step g

/-- The ordered sequence of events a connection has observed. -/
def observedBy (g : GWState) (conn : String) : List GWEvent :=
  (g.emits.filter (fun e => e.1 == conn)).map (fun e => e.2)

/-- The contents of the segment:added events in an observed event sequence. -/
def segAddedContents (evs : List GWEvent) : List String :=
  evs.filterMap (fun ev =>
    match ev with
    | GWEvent.segmentAdded seg => some seg.content
    | _ => none)

/-- The two-client scenario of the spec: client c1 creates session "Test"
(its id is the first fresh id), client c2 joins, c1 adds user segment "A",
then c2 adds user segment "B". -/
def twoClientTrace : List Request :=
  [Request.sessionCreate "c1" "Test" none "User0" 100,
   Request.sessionJoin "c2" (freshId 0) "User1" 150,
   Request.segmentAdd "c1" (freshId 0) "A" 200 none 0,
   Request.segmentAdd "c2" (freshId 0) "B" 300 none 0]

/-- Invariant of the registry: every stored session's segment log is sorted
non-decreasing by timestamp. -/
def ManagerSorted (m : StoryManager) : Prop :=
  ∀ sessionId s, m.getSession sessionId = some s → List.Sorted segLE s.segments

/-- Invariant of reachable gateway states: sorted logs and no duplicate room
membership pairs. -/
def GWInv (g : GWState) : Prop :=
  ManagerSorted g.manager ∧ g.rooms.Nodup

end GhostStory

namespace GhostStory

/-! Theorems. First, properties of the stable timestamp sort. -/

theorem filter_ts_orderedInsert (a : StorySegment) (l : List StorySegment) (t : Int) :
    (l.orderedInsert segLE a).filter (fun s => s.timestamp == t) =
      if a.timestamp == t then a :: l.filter (fun s => s.timestamp == t)
      else l.filter (fun s => s.timestamp == t) := by
  induction l with
  | nil =>
      by_cases hat : a.timestamp = t <;>
        simp [List.orderedInsert, List.filter_cons, hat]
  | cons b bs ih =>
      by_cases hab : segLE a b
      · by_cases hat : a.timestamp = t <;>
          by_cases hbt : b.timestamp = t <;>
            simp [List.orderedInsert, hab, List.filter_cons, hat, hbt]
      · have hlt : b.timestamp < a.timestamp := by
          by_contra hcon
          exact hab (le_of_not_lt hcon)
        by_cases hat : a.timestamp = t
        · have hbt : ¬ b.timestamp = t := by omega
          simp [List.orderedInsert, hab, List.filter_cons, hat, hbt, ih]
        · by_cases hbt : b.timestamp = t <;>
            simp [List.orderedInsert, hab, List.filter_cons, hat, hbt, ih]

theorem filter_ts_sortSegments (l : List StorySegment) (t : Int) :
    (sortSegments l).filter (fun s => s.timestamp == t) =
      l.filter (fun s => s.timestamp == t) := by
  induction l with
  | nil => rfl
  | cons a as ih =>
      have : sortSegments (a :: as) = (sortSegments as).orderedInsert segLE a := rfl
      rw [this, filter_ts_orderedInsert]
      by_cases hat : a.timestamp = t <;> simp [List.filter_cons, hat, ih]

theorem sorted_sortSegments (l : List StorySegment) :
    List.Sorted segLE (sortSegments l) :=
  List.sorted_insertionSort segLE l

theorem perm_sortSegments (l : List StorySegment) : (sortSegments l).Perm l :=
  List.perm_insertionSort segLE l

theorem sorted_addSegmentToLog (log : List StorySegment) (seg : StorySegment) :
    List.Sorted segLE (addSegmentToLog log seg) :=
  sorted_sortSegments _

theorem perm_addSegmentToLog (log : List StorySegment) (seg : StorySegment) :
    (addSegmentToLog log seg).Perm (log ++ [seg]) :=
  perm_sortSegments _

theorem filter_ts_addSegmentToLog (log : List StorySegment) (seg : StorySegment) (t : Int) :
    (addSegmentToLog log seg).filter (fun s => s.timestamp == t) =
      (log ++ [seg]).filter (fun s => s.timestamp == t) :=
  filter_ts_sortSegments _ t

theorem foldl_addSegmentToLog_props (segs : List StorySegment) :
    ∀ acc pre : List StorySegment,
      List.Sorted segLE acc →
      (∀ t : Int, acc.filter (fun s => s.timestamp == t) =
        pre.filter (fun s => s.timestamp == t)) →
      acc.Perm pre →
      List.Sorted segLE (segs.foldl addSegmentToLog acc) ∧
      (∀ t : Int, (segs.foldl addSegmentToLog acc).filter (fun s => s.timestamp == t) =
        (pre ++ segs).filter (fun s => s.timestamp == t)) ∧
      (segs.foldl addSegmentToLog acc).Perm (pre ++ segs) := by
  induction segs with
  | nil =>
      intro acc pre h1 h2 h3
      simpa using ⟨h1, h2, h3⟩
  | cons x xs ih =>
      intro acc pre h1 h2 h3
      have s1 : List.Sorted segLE (addSegmentToLog acc x) := sorted_addSegmentToLog acc x
      have s2 : ∀ t : Int, (addSegmentToLog acc x).filter (fun s => s.timestamp == t) =
          (pre ++ [x]).filter (fun s => s.timestamp == t) := by
        intro t
        rw [filter_ts_addSegmentToLog]
        simp [List.filter_append, h2 t]
      have s3 : (addSegmentToLog acc x).Perm (pre ++ [x]) :=
        (perm_addSegmentToLog acc x).trans (h3.append_right [x])
      have := ih (addSegmentToLog acc x) (pre ++ [x]) s1 s2 s3
      simpa [List.append_assoc] using this

/-- C2: after any sequence of addSegment calls with arbitrary timestamps into
a fresh session, the segment log is sorted non-decreasing by timestamp,
equal-timestamp segments appear in insertion order (the log's restriction to
any fixed timestamp equals the call sequence's restriction), and no segment is
ever removed or edited (the log is a permutation of exactly the appended
segments). -/
theorem chronological_log_invariant (segs : List StorySegment) :
    List.Sorted segLE (segs.foldl addSegmentToLog []) ∧
    (∀ t : Int, (segs.foldl addSegmentToLog []).filter (fun s => s.timestamp == t) =
      segs.filter (fun s => s.timestamp == t)) ∧
    (segs.foldl addSegmentToLog []).Perm segs := by
  have := foldl_addSegmentToLog_props segs [] [] (by simp) (by intro t; rfl) (by rfl)
  simpa using this

/-- C6 counterexample: on a session id not present in the registry,
StoryManager.exportSession does not report a not-found condition as a return
value — it throws (`Except.error` models `throw new Error('Session not
found')`), refuting the claim that every registry operation reports
SessionNotFound to its caller rather than throwing. -/
theorem exportSession_missing_throws :
    StoryManager.exportSession ⟨[]⟩ "missing" ExportFormat.text =
      Except.error "Session not found" := by
  rfl

/-- C6 amended: on a session id not present in the registry, addParticipant
and addSegment are silent no-ops (no mutation, nothing reported to the
caller, no throw), while exportSession throws an Error with message
'Session not found' (caught by the gateway handler). -/
theorem missing_session_semantics (m : StoryManager) (sessionId : String)
    (p : Participant) (seg : StorySegment) (now : Int) (format : ExportFormat)
    (h : m.getSession sessionId = none) :
    m.addParticipant sessionId p now = m ∧
    m.addSegment sessionId seg now = m ∧
    m.exportSession sessionId format = Except.error "Session not found" := by
  refine ⟨?_, ?_, ?_⟩ <;>
    simp [StoryManager.addParticipant, StoryManager.addSegment,
      StoryManager.exportSession, h]

theorem missing_session_semantics_witness :
    StoryManager.addSegment ⟨[]⟩ "missing"
        { id := "x", content := "A", contributorId := "c",
          contributorType := ContributorType.user, timestamp := 0, moodTags := [] } 0 =
      (⟨[]⟩ : StoryManager) :=
  (missing_session_semantics ⟨[]⟩ "missing"
    { id := "c1", name := "n", joinedAt := 0 }
    { id := "x", content := "A", contributorId := "c",
      contributorType := ContributorType.user, timestamp := 0, moodTags := [] }
    0 ExportFormat.text rfl).2.1

/-- C7 counterexample: six consecutive getNextDelay calls from a fresh
ReconnectionManager, with Math.random() drawing 0.5 five times and then 0.9,
return 36000 ms on the sixth call — the jitter is applied after capping, so
the returned delay exceeds maxDelay = 30000. -/
theorem backoff_delay_exceeds_cap :
    (runDelays ⟨0⟩ [1/2, 1/2, 1/2, 1/2, 1/2, 9/10]).1 =
      [1000, 2000, 4000, 8000, 16000, 36000] ∧
    rmMaxDelay < 36000 := by
  constructor
  · norm_num [runDelays, RMState.getNextDelay, rmBaseDelay, rmMaxDelay]
  · norm_num [rmMaxDelay]

/-- C7 amended: the delay returned by getNextDelay never exceeds
maxDelay * 1.25 (the un-jittered value is capped at maxDelay and the jitter
adds strictly less than 25% of it), `attempt` increments once per call, and
the un-jittered component `min(baseDelay * 2 ^ attempt, maxDelay)` is
non-decreasing across successive calls and never exceeds maxDelay. -/
theorem backoff_capped_jitter (st : RMState) (r : ℚ) (h0 : 0 ≤ r) (h1 : r < 1) :
    (st.getNextDelay r).1 < rmMaxDelay * (5 / 4) ∧
    (st.getNextDelay r).2.attempt = st.attempt + 1 ∧
    (∀ k : Nat, cappedComponent k ≤ cappedComponent (k + 1) ∧
      cappedComponent k ≤ rmMaxDelay) ∧
    (∀ (st0 : RMState) (rs : List ℚ),
      ((runDelays st0 rs).2).attempt = st0.attempt + rs.length) := by
  refine ⟨?_, rfl, ?_, ?_⟩
  · have hc0 : (0 : ℚ) < min (rmBaseDelay * 2 ^ st.attempt) rmMaxDelay := by
      apply lt_min
      · have : (0 : ℚ) < 2 ^ st.attempt := by positivity
        simp only [rmBaseDelay]
        positivity
      · norm_num [rmMaxDelay]
    have hcM : min (rmBaseDelay * 2 ^ st.attempt) rmMaxDelay ≤ rmMaxDelay :=
      min_le_right _ _
    set c : ℚ := min (rmBaseDelay * 2 ^ st.attempt) rmMaxDelay with hc
    have hj : c * (1 / 4) * (r * 2 - 1) < c * (1 / 4) * 1 := by
      apply mul_lt_mul_of_pos_left _ (by positivity)
      linarith
    simp only [RMState.getNextDelay, ← hc]
    rw [max_lt_iff]
    constructor
    · norm_num [rmMaxDelay]
    · rw [mul_one] at hj
      norm_num [rmMaxDelay] at hcM ⊢
      linarith
  · intro k
    constructor
    · apply min_le_min _ le_rfl
      have h2 : (2 : ℚ) ^ k ≤ 2 ^ (k + 1) := by
        apply pow_le_pow_right₀ (by norm_num) (Nat.le_succ k)
      have hb : (0 : ℚ) ≤ rmBaseDelay := by norm_num [rmBaseDelay]
      exact mul_le_mul_of_nonneg_left h2 hb
    · exact min_le_right _ _
  · intro st0 rs
    induction rs generalizing st0 with
    | nil => simp [runDelays]
    | cons r1 rs1 ih =>
        simp only [runDelays, RMState.getNextDelay]
        rw [ih]
        simp [List.length_cons]
        omega

theorem backoff_capped_jitter_witness :
    (RMState.getNextDelay ⟨5⟩ (9 / 10)).1 < rmMaxDelay * (5 / 4) :=
  (backoff_capped_jitter ⟨5⟩ (9 / 10) (by norm_num) (by norm_num)).1

/-- C10: incrementRetry on a (sessionId, timestamp) pair that matches no
queued entry returns false — indistinguishable by return value from retry
exhaustion — and leaves the whole state (in-memory queue and persisted
storage) unchanged. -/
theorem incrementRetry_missing_noop (st : OQState) (sessionId : String)
    (timestamp : Int)
    (h : st.queue.find? (entryMatches sessionId timestamp) = none) :
    st.incrementRetry sessionId timestamp = (false, st) := by
  simp [OQState.incrementRetry, h]

theorem incrementRetry_missing_noop_witness :
    OQState.incrementRetry ⟨[], none⟩ "s" 0 = (false, (⟨[], none⟩ : OQState)) :=
  incrementRetry_missing_noop ⟨[], none⟩ "s" 0 rfl

/-- C9: after any sequence of queue operations, constructing a new
OfflineQueue against the same storage reproduces the exact queue — same
size, same entries in the same order, each entry's sessionId, content,
retryCount and timestamp preserved. -/
theorem offline_queue_round_trip (storage : Option (List QueuedSegment))
    (ops : List QOp) :
    (newOfflineQueue ((applyQOps (newOfflineQueue storage) ops).storage)).queue =
      (applyQOps (newOfflineQueue storage) ops).queue := by
  have key : ∀ (ops1 : List QOp) (st : OQState),
      loadQueue st.storage = st.queue →
      loadQueue ((applyQOps st ops1).storage) = (applyQOps st ops1).queue := by
    intro ops1
    induction ops1 with
    | nil => intro st h; simpa [applyQOps] using h
    | cons op rest ih =>
        intro st h
        have hstep : loadQueue ((applyQOp st op).storage) = (applyQOp st op).queue := by
          cases op with
          | enqueue sid content now => simp [applyQOp, OQState.enqueue, saveQ, loadQueue]
          | dequeue sid ts => simp [applyQOp, OQState.dequeue, saveQ, loadQueue]
          | incrementRetry sid ts =>
              simp only [applyQOp, OQState.incrementRetry]
              rcases hf : st.queue.find? (entryMatches sid ts) with _ | e
              · simpa using h
              · by_cases hge : e.retryCount + 1 ≥ maxRetries <;>
                  simp [hge, OQState.dequeue, saveQ, loadQueue]
          | clearSession sid => simp [applyQOp, OQState.clearSession, saveQ, loadQueue]
          | clearAll => simp [applyQOp, OQState.clearAll, saveQ, loadQueue]
        have := ih (applyQOp st op) hstep
        simpa [applyQOps, List.foldl_cons] using this
  have base : loadQueue (newOfflineQueue storage).storage = (newOfflineQueue storage).queue := rfl
  exact key ops (newOfflineQueue storage) base

theorem find?_eq_head?_filter (p : QueuedSegment → Bool) (l : List QueuedSegment) :
    l.find? p = (l.filter p).head? := by
  induction l with
  | nil => rfl
  | cons a as ih =>
      by_cases ha : p a
      · simp [List.find?_cons_of_pos, List.filter_cons_of_pos, ha]
      · rw [List.find?_cons_of_neg _ ha, List.filter_cons_of_neg ha, ih]

theorem entryMatches_bump (sessionId : String) (timestamp : Int) (e : QueuedSegment)
    (n : Nat) :
    entryMatches sessionId timestamp { e with retryCount := n } =
      entryMatches sessionId timestamp e := rfl

theorem filter_bumpFirst_unique (sessionId : String) (timestamp : Int)
    (e : QueuedSegment) (l : List QueuedSegment)
    (h : l.filter (entryMatches sessionId timestamp) = [e]) :
    (bumpFirst sessionId timestamp l).filter (entryMatches sessionId timestamp) =
      [{ e with retryCount := e.retryCount + 1 }] := by
  induction l with
  | nil => simp at h
  | cons a as ih =>
      by_cases ha : entryMatches sessionId timestamp a
      · rw [List.filter_cons_of_pos ha] at h
        have hae : a = e ∧ as.filter (entryMatches sessionId timestamp) = [] := by
          constructor
          · exact (List.cons_eq_cons.mp h).1
          · exact (List.cons_eq_cons.mp h).2
        obtain ⟨rfl, hrest⟩ := hae
        simp [bumpFirst, ha, List.filter_cons, entryMatches_bump, hrest]
      · rw [List.filter_cons_of_neg ha] at h
        simp [bumpFirst, ha, List.filter_cons, ih h]

theorem find?_filter_not (p : QueuedSegment → Bool) (l : List QueuedSegment) :
    (l.filter (fun x => !p x)).find? p = none := by
  rw [List.find?_eq_none]
  intro x hx
  have hmem := List.mem_filter.mp hx
  simp only [Bool.not_eq_true'] at hmem
  simp [hmem.2]

/-- C8: incrementRetry on the first entry matching the pair returns "may
retry" (true) exactly when the incremented count is still below maxRetries,
in which case the bumped queue is persisted; when the incremented count
reaches maxRetries the entry is removed and the call returns false. On a
fresh entry (retryCount 0, the unique match for its pair) three consecutive
calls return true, true, false, and afterwards the entry is absent from the
queue. -/
theorem incrementRetry_exhaustion :
    (∀ (st : OQState) (sessionId : String) (timestamp : Int) (e : QueuedSegment),
      st.queue.find? (entryMatches sessionId timestamp) = some e →
      ((st.incrementRetry sessionId timestamp).1 = true ↔
        e.retryCount + 1 < maxRetries) ∧
      (e.retryCount + 1 < maxRetries →
        (st.incrementRetry sessionId timestamp).2.queue =
          bumpFirst sessionId timestamp st.queue ∧
        (st.incrementRetry sessionId timestamp).2.storage =
          some (bumpFirst sessionId timestamp st.queue)) ∧
      (maxRetries ≤ e.retryCount + 1 →
        ((st.incrementRetry sessionId timestamp).2.queue.find?
          (entryMatches sessionId timestamp)) = none)) ∧
    (∀ (st : OQState) (sessionId : String) (timestamp : Int) (e : QueuedSegment),
      st.queue.filter (entryMatches sessionId timestamp) = [e] →
      e.retryCount = 0 →
      (st.incrementRetry sessionId timestamp).1 = true ∧
      ((st.incrementRetry sessionId timestamp).2.incrementRetry sessionId
        timestamp).1 = true ∧
      (((st.incrementRetry sessionId timestamp).2.incrementRetry sessionId
        timestamp).2.incrementRetry sessionId timestamp).1 = false ∧
      ((((st.incrementRetry sessionId timestamp).2.incrementRetry sessionId
        timestamp).2.incrementRetry sessionId timestamp).2.queue.find?
          (entryMatches sessionId timestamp) = none)) := by
  have general : ∀ (st : OQState) (sessionId : String) (timestamp : Int)
      (e : QueuedSegment),
      st.queue.find? (entryMatches sessionId timestamp) = some e →
      ((st.incrementRetry sessionId timestamp).1 = true ↔
        e.retryCount + 1 < maxRetries) ∧
      (e.retryCount + 1 < maxRetries →
        (st.incrementRetry sessionId timestamp).2.queue =
          bumpFirst sessionId timestamp st.queue ∧
        (st.incrementRetry sessionId timestamp).2.storage =
          some (bumpFirst sessionId timestamp st.queue)) ∧
      (maxRetries ≤ e.retryCount + 1 →
        ((st.incrementRetry sessionId timestamp).2.queue.find?
          (entryMatches sessionId timestamp)) = none) := by
    intro st sessionId timestamp e hf
    by_cases hge : e.retryCount + 1 ≥ maxRetries
    · refine ⟨?_, ?_, ?_⟩
      · simp [OQState.incrementRetry, hf, hge]
      · intro hlt; omega
      · intro _
        simp only [OQState.incrementRetry, hf, if_pos hge, OQState.dequeue, saveQ]
        exact find?_filter_not _ _
    · have hlt : e.retryCount + 1 < maxRetries := by omega
      refine ⟨?_, ?_, ?_⟩
      · simp [OQState.incrementRetry, hf, hge, hlt]
      · intro _
        simp [OQState.incrementRetry, hf, hge, saveQ]
      · intro hge2; omega
  refine ⟨general, ?_⟩
  intro st sessionId timestamp e hfilter h0
  have hf1 : st.queue.find? (entryMatches sessionId timestamp) = some e := by
    rw [find?_eq_head?_filter, hfilter]; rfl
  have hmax : maxRetries = 3 := rfl
  have g1 := general st sessionId timestamp e hf1
  have hlt1 : e.retryCount + 1 < maxRetries := by omega
  have hq1 : (st.incrementRetry sessionId timestamp).2.queue =
      bumpFirst sessionId timestamp st.queue := (g1.2.1 hlt1).1
  have hfilter1 : (st.incrementRetry sessionId timestamp).2.queue.filter
      (entryMatches sessionId timestamp) = [{ e with retryCount := e.retryCount + 1 }] := by
    rw [hq1]
    exact filter_bumpFirst_unique _ _ _ _ hfilter
  have hf2 : (st.incrementRetry sessionId timestamp).2.queue.find?
      (entryMatches sessionId timestamp) = some { e with retryCount := e.retryCount + 1 } := by
    rw [find?_eq_head?_filter, hfilter1]; rfl
  have g2 := general _ sessionId timestamp _ hf2
  have hlt2 : ({ e with retryCount := e.retryCount + 1 } : QueuedSegment).retryCount + 1 <
      maxRetries := by
    show e.retryCount + 1 + 1 < maxRetries
    omega
  have hq2 : ((st.incrementRetry sessionId timestamp).2.incrementRetry sessionId
      timestamp).2.queue =
      bumpFirst sessionId timestamp (st.incrementRetry sessionId timestamp).2.queue :=
    (g2.2.1 hlt2).1
  have hfilter2 : ((st.incrementRetry sessionId timestamp).2.incrementRetry sessionId
      timestamp).2.queue.filter (entryMatches sessionId timestamp) =
      [{ e with retryCount := e.retryCount + 1 + 1 }] := by
    rw [hq2]
    exact filter_bumpFirst_unique _ _ _ _ hfilter1
  have hf3 : ((st.incrementRetry sessionId timestamp).2.incrementRetry sessionId
      timestamp).2.queue.find? (entryMatches sessionId timestamp) =
      some { e with retryCount := e.retryCount + 1 + 1 } := by
    rw [find?_eq_head?_filter, hfilter2]; rfl
  have g3 := general _ sessionId timestamp _ hf3
  have hge3 : maxRetries ≤
      ({ e with retryCount := e.retryCount + 1 + 1 } : QueuedSegment).retryCount + 1 := by
    show maxRetries ≤ e.retryCount + 1 + 1 + 1
    omega
  refine ⟨?_, ?_, ?_, ?_⟩
  · exact (g1.1).mpr hlt1
  · exact (g2.1).mpr hlt2
  · rcases hb : (((st.incrementRetry sessionId timestamp).2.incrementRetry sessionId
        timestamp).2.incrementRetry sessionId timestamp).1 with _ | _
    · rfl
    · exfalso
      have h5 := (g3.1).mp hb
      have h6 : e.retryCount + 1 + 1 + 1 < maxRetries := h5
      omega
  · exact g3.2.2 hge3

theorem incrementRetry_exhaustion_witness :
    (OQState.incrementRetry ⟨[⟨"s", "hello", 7, 0⟩], none⟩ "s" 7).1 = true :=
  (incrementRetry_exhaustion.2 ⟨[⟨"s", "hello", 7, 0⟩], none⟩ "s" 7
    ⟨"s", "hello", 7, 0⟩ rfl rfl).1

/-! Helper lemmas about the session registry. -/

theorem find?_map_of_pred {α : Type} (f : α → α) (q : α → Bool) (l : List α)
    (hq : ∀ x, q (f x) = q x) :
    (l.map f).find? q = (l.find? q).map f := by
  induction l with
  | nil => rfl
  | cons a as ih =>
      rw [List.map_cons, List.find?_cons, List.find?_cons, hq a]
      cases hb : q a
      · exact ih
      · rfl

theorem setKey_pred (sessionId sid2 : String) (s : StorySession)
    (p : String × StorySession) :
    (((if p.1 == sessionId then (p.1, s) else p) : String × StorySession).1 == sid2) =
      (p.1 == sid2) := by
  by_cases h : (p.1 == sessionId) = true
  · rw [if_pos h]
  · rw [if_neg h]

theorem getSession_setSession_self (m : StoryManager) (sessionId : String)
    (s s0 : StorySession) (h : m.getSession sessionId = some s0) :
    (m.setSession sessionId s).getSession sessionId = some s := by
  obtain ⟨l⟩ := m
  simp only [StoryManager.getSession, StoryManager.setSession] at h ⊢
  rw [find?_map_of_pred _ _ _ (setKey_pred sessionId sessionId s)]
  rcases hf : l.find? (fun p => p.1 == sessionId) with _ | a
  · rw [hf] at h; simp at h
  · have hkey : (a.1 == sessionId) = true := by simpa using List.find?_some hf
    rw [hf]
    show some ((if (a.1 == sessionId) = true then (a.1, s) else a).2) = some s
    rw [if_pos hkey]

theorem getSession_setSession_cases (m : StoryManager) (sessionId sid2 : String)
    (s : StorySession) :
    (m.setSession sessionId s).getSession sid2 = m.getSession sid2 ∨
      (m.setSession sessionId s).getSession sid2 = some s := by
  obtain ⟨l⟩ := m
  simp only [StoryManager.getSession, StoryManager.setSession]
  rw [find?_map_of_pred _ _ _ (setKey_pred sessionId sid2 s)]
  rcases hf : l.find? (fun p => p.1 == sid2) with _ | a
  · left; rw [hf]; rfl
  · rw [hf]
    by_cases hb : (a.1 == sessionId) = true
    · right
      show some ((if (a.1 == sessionId) = true then (a.1, s) else a).2) = some s
      rw [if_pos hb]
    · left
      show some ((if (a.1 == sessionId) = true then (a.1, s) else a).2) = some a.2
      rw [if_neg hb]

theorem getSession_addSegment_self (m : StoryManager) (sessionId : String)
    (s : StorySession) (seg : StorySegment) (now : Int)
    (h : m.getSession sessionId = some s) :
    (m.addSegment sessionId seg now).getSession sessionId =
      some { s with segments := addSegmentToLog s.segments seg, lastActivityAt := now } := by
  simp only [StoryManager.addSegment, h]
  exact getSession_setSession_self m sessionId _ s h

theorem getSession_addParticipant_self (m : StoryManager) (sessionId : String)
    (s : StorySession) (p : Participant) (now : Int)
    (h : m.getSession sessionId = some s) :
    (m.addParticipant sessionId p now).getSession sessionId =
      some { s with
        participants :=
          if s.participants.any (fun q => q.name == p.name) then s.participants
          else s.participants ++ [p],
        lastActivityAt := now } := by
  simp only [StoryManager.addParticipant, h]
  by_cases hdup : (s.participants.any (fun q => q.name == p.name)) = true
  · simp only [if_pos hdup]
    exact getSession_setSession_self m sessionId _ s h
  · simp only [if_neg hdup]
    exact getSession_setSession_self m sessionId _ s h

theorem getSession_addSegment_cases (m : StoryManager) (sessionId sid2 : String)
    (seg : StorySegment) (now : Int) :
    (m.addSegment sessionId seg now).getSession sid2 = m.getSession sid2 ∨
      ∃ s, m.getSession sessionId = some s ∧
        (m.addSegment sessionId seg now).getSession sid2 =
          some { s with segments := addSegmentToLog s.segments seg, lastActivityAt := now } := by
  rcases hm : m.getSession sessionId with _ | s
  · left; simp only [StoryManager.addSegment, hm]
  · simp only [StoryManager.addSegment, hm]
    rcases getSession_setSession_cases m sessionId sid2
        { s with segments := addSegmentToLog s.segments seg, lastActivityAt := now } with
      hc | hc
    · left; exact hc
    · right; exact ⟨s, rfl, hc⟩

theorem getSession_addParticipant_segments (m : StoryManager) (sessionId sid2 : String)
    (p : Participant) (now : Int) :
    ((m.addParticipant sessionId p now).getSession sid2).map (fun x => x.segments) =
        (m.getSession sid2).map (fun x => x.segments) ∨
      ∃ s, m.getSession sessionId = some s ∧
        ((m.addParticipant sessionId p now).getSession sid2).map (fun x => x.segments) =
          some s.segments := by
  rcases hm : m.getSession sessionId with _ | s
  · left; simp only [StoryManager.addParticipant, hm]
  · simp only [StoryManager.addParticipant, hm]
    by_cases hdup : s.participants.any (fun q => q.name == p.name)
    · simp only [if_pos hdup]
      rcases getSession_setSession_cases m sessionId sid2 { s with lastActivityAt := now } with
        hc | hc
      · left; rw [hc]
      · right; exact ⟨s, rfl, by rw [hc]; rfl⟩
    · simp only [if_neg hdup]
      rcases getSession_setSession_cases m sessionId sid2
          { s with participants := s.participants ++ [p], lastActivityAt := now } with
        hc | hc
      · left; rw [hc]
      · right; exact ⟨s, rfl, by rw [hc]; rfl⟩

theorem getSession_createSession_cases (m : StoryManager) (id title : String)
    (sp : Option String) (now : Int) (sid2 : String) :
    (m.createSession id title sp now).1.getSession sid2 = m.getSession sid2 ∨
      (m.createSession id title sp now).1.getSession sid2 =
        some (m.createSession id title sp now).2 := by
  simp only [StoryManager.createSession, StoryManager.getSession, List.find?_append]
  rcases hf : m.sessions.find? (fun p => p.1 == sid2) with _ | a
  · rw [hf]
    cases hb : id == sid2
    · left
      rw [List.find?_cons_of_neg _ (by simp [hb])]
      rfl
    · right
      rw [List.find?_cons_of_pos _ (by simp [hb])]
      rfl
  · left
    rw [hf]
    rfl

/-! Helper lemmas about the emission log. -/

theorem observedBy_emits_eq (g g2 : GWState) (c : String) (h : g2.emits = g.emits) :
    observedBy g2 c = observedBy g c := by
  simp [observedBy, h]

theorem observedBy_emitTo (g : GWState) (conn : String) (ev : GWEvent) (c : String) :
    observedBy (emitTo g conn ev) c =
      observedBy g c ++ if conn = c then [ev] else [] := by
  by_cases h : conn = c <;>
    simp [observedBy, emitTo, List.filter_append, h]

theorem emitPairs_filter (l : List String) (ev : GWEvent) (c : String) :
    ((l.map (fun mem => (mem, ev))).filter (fun e => e.1 == c)).map (fun e => e.2) =
      List.replicate (l.count c) ev := by
  induction l with
  | nil => rfl
  | cons a as ih =>
      by_cases h : a = c
      · simp [List.filter_cons, List.count_cons, h, ih, List.replicate_succ]
      · simp [List.filter_cons, List.count_cons, h, ih]

theorem observedBy_emitRoom (g : GWState) (sessionId : String) (ev : GWEvent)
    (c : String) :
    observedBy (emitRoom g sessionId ev) c =
      observedBy g c ++
        List.replicate ((roomMembers g.rooms sessionId).count c) ev := by
  simp [observedBy, emitRoom, List.filter_append, emitPairs_filter]

theorem observedBy_emitRoom_mem (g : GWState) (sessionId : String) (ev : GWEvent)
    (c : String) (hn : (roomMembers g.rooms sessionId).Nodup)
    (hc : c ∈ roomMembers g.rooms sessionId) :
    observedBy (emitRoom g sessionId ev) c = observedBy g c ++ [ev] := by
  rw [observedBy_emitRoom, List.count_eq_one_of_mem hn hc]
  rfl

theorem observedBy_emitRoom_not_mem (g : GWState) (sessionId : String) (ev : GWEvent)
    (c : String) (hc : c ∉ roomMembers g.rooms sessionId) :
    observedBy (emitRoom g sessionId ev) c = observedBy g c := by
  rw [observedBy_emitRoom, List.count_eq_zero.mpr hc]
  simp

theorem gwInv_emitTo (g : GWState) (conn : String) (ev : GWEvent) (h : GWInv g) :
    GWInv (emitTo g conn ev) := h

theorem gwInv_emitRoom (g : GWState) (sessionId : String) (ev : GWEvent)
    (h : GWInv g) : GWInv (emitRoom g sessionId ev) := h

theorem gwInv_emitRoomExcept (g : GWState) (sessionId sender : String) (ev : GWEvent)
    (h : GWInv g) : GWInv (emitRoomExcept g sessionId sender ev) := h

theorem managerSorted_addSegment (m : StoryManager) (sessionId : String)
    (seg : StorySegment) (now : Int) (hm : ManagerSorted m) :
    ManagerSorted (m.addSegment sessionId seg now) := by
  intro sid2 s2 h2
  rcases getSession_addSegment_cases m sessionId sid2 seg now with hc | ⟨s, _, hc⟩
  · rw [hc] at h2
    exact hm sid2 s2 h2
  · rw [hc] at h2
    cases h2
    exact sorted_addSegmentToLog _ _

theorem managerSorted_addParticipant (m : StoryManager) (sessionId : String)
    (p : Participant) (now : Int) (hm : ManagerSorted m) :
    ManagerSorted (m.addParticipant sessionId p now) := by
  intro sid2 s2 h2
  rcases getSession_addParticipant_segments m sessionId sid2 p now with hc | ⟨s, hs, hc⟩
  · rw [h2] at hc
    rcases hseg : m.getSession sid2 with _ | s3
    · rw [hseg] at hc; simp at hc
    · rw [hseg] at hc
      have : s2.segments = s3.segments := by simpa using hc
      rw [this]
      exact hm sid2 s3 hseg
  · rw [h2] at hc
    have : s2.segments = s.segments := by simpa using hc
    rw [this]
    exact hm sessionId s hs

theorem managerSorted_createSession (m : StoryManager) (id title : String)
    (sp : Option String) (now : Int) (hm : ManagerSorted m) :
    ManagerSorted (m.createSession id title sp now).1 := by
  intro sid2 s2 h2
  rcases getSession_createSession_cases m id title sp now sid2 with hc | hc
  · rw [hc] at h2
    exact hm sid2 s2 h2
  · rw [hc] at h2
    cases h2
    exact List.sorted_nil

theorem joinRoom_nodup (rooms : List (String × String)) (conn sessionId : String)
    (h : rooms.Nodup) : (joinRoom rooms conn sessionId).Nodup := by
  rw [joinRoom]
  by_cases hc : rooms.contains (conn, sessionId)
  · rw [if_pos hc]; exact h
  · rw [if_neg hc]
    rw [List.nodup_append]
    refine ⟨h, List.nodup_singleton _, ?_⟩
    intro x hx hx2
    rw [List.mem_singleton] at hx2
    subst hx2
    exact hc (by simpa using hx)

theorem observedBy_emitRoomExcept_self (g : GWState) (sessionId sender : String)
    (ev : GWEvent) :
    observedBy (emitRoomExcept g sessionId sender ev) sender = observedBy g sender := by
  simp only [observedBy, emitRoomExcept, List.filter_append, List.map_append]
  have hnil : ((((roomMembers g.rooms sessionId).filter
      (fun c => !(c == sender))).map (fun c => (c, ev))).filter
        (fun e => e.1 == sender)) = [] := by
    rw [List.filter_eq_nil_iff]
    intro x hx
    obtain ⟨c, hc, rfl⟩ := List.mem_map.mp hx
    have := (List.mem_filter.mp hc).2
    simpa using this
  rw [hnil]
  simp

theorem gwInv_step (g : GWState) (r : Request) (h : GWInv g) : GWInv (step g r) := by
  obtain ⟨hm, hr⟩ := h
  cases r with
  | sessionCreate conn title sp userName now =>
      simp only [step]
      split
      · exact ⟨managerSorted_addParticipant _ _ _ _
          (managerSorted_createSession _ _ _ _ _ hm), joinRoom_nodup _ _ _ hr⟩
      · exact ⟨managerSorted_addParticipant _ _ _ _
          (managerSorted_createSession _ _ _ _ _ hm), joinRoom_nodup _ _ _ hr⟩
  | sessionJoin conn sessionId userName now =>
      simp only [step]
      split
      · exact ⟨hm, hr⟩
      · split
        · exact ⟨managerSorted_addParticipant _ _ _ _ hm, joinRoom_nodup _ _ _ hr⟩
        · exact ⟨managerSorted_addParticipant _ _ _ _ hm, joinRoom_nodup _ _ _ hr⟩
  | segmentAdd conn sessionId content now aiOutcome aiNow =>
      simp only [step]
      split
      · exact ⟨hm, hr⟩
      · split
        · exact ⟨hm, hr⟩
        · split
          · exact ⟨managerSorted_addSegment _ _ _ _ hm, hr⟩
          · split
            · split
              · exact ⟨managerSorted_addSegment _ _ _ _
                  (managerSorted_addSegment _ _ _ _ hm), hr⟩
              · exact ⟨managerSorted_addSegment _ _ _ _ hm, hr⟩
            · exact ⟨managerSorted_addSegment _ _ _ _ hm, hr⟩
  | sessionReconnect conn sessionId participantId =>
      simp only [step]
      split
      · exact ⟨hm, hr⟩
      · exact ⟨hm, joinRoom_nodup _ _ _ hr⟩
  | sessionExport conn sessionId format =>
      simp only [step]
      split
      · exact ⟨hm, hr⟩
      · split
        · exact ⟨hm, hr⟩
        · exact ⟨hm, hr⟩

theorem gwInv_initGW : GWInv initGW := by
  constructor
  · intro sid s h
    simp [initGW, StoryManager.getSession] at h
  · exact List.nodup_nil

theorem gwInv_runGW (rs : List Request) : GWInv (runGW initGW rs) := by
  have key : ∀ (rs1 : List Request) (g : GWState), GWInv g → GWInv (runGW g rs1) := by
    intro rs1
    induction rs1 with
    | nil => intro g h; exact h
    | cons r rest ih =>
        intro g h
        exact ih (step g r) (gwInv_step g r h)
  exact key rs initGW gwInv_initGW

theorem validateSegment_invalid (content : String)
    (hbad : hasContent content = false ∨ isValidLength (sanitizeInput content) = false ∨
      containsProfanity (sanitizeInput content) = true) :
    (validateSegment content).valid = false := by
  rcases hbad with h | h | h
  · simp [validateSegment, h]
  · by_cases hc : hasContent content
    · simp [validateSegment, hc, h]
    · simp [validateSegment, hc]
  · by_cases hc : hasContent content
    · by_cases hl : isValidLength (sanitizeInput content)
      · simp [validateSegment, hc, hl, h]
      · simp [validateSegment, hc, hl]
    · simp [validateSegment, hc]

/-- C5: a segment:add whose content is empty/whitespace-only, whose sanitized
trimmed length falls outside 1..500, or which contains a profanity word, is
answered with a CONTENT_VALIDATION_ERROR error to the requesting connection
only (no other connection receives anything), and the registry — in
particular every session's segment list — is left unchanged. -/
theorem invalid_content_rejected (g : GWState) (conn sessionId content : String)
    (now : Int) (aiOutcome : Option HorrorElement) (aiNow : Int)
    (hbad : hasContent content = false ∨ isValidLength (sanitizeInput content) = false ∨
      containsProfanity (sanitizeInput content) = true) :
    step g (Request.segmentAdd conn sessionId content now aiOutcome aiNow) =
      emitTo g conn (GWEvent.errorEvent "CONTENT_VALIDATION_ERROR") ∧
    (step g (Request.segmentAdd conn sessionId content now aiOutcome aiNow)).manager =
      g.manager ∧
    observedBy (step g (Request.segmentAdd conn sessionId content now aiOutcome aiNow))
        conn = observedBy g conn ++ [GWEvent.errorEvent "CONTENT_VALIDATION_ERROR"] ∧
    (∀ c : String, c ≠ conn →
      observedBy (step g (Request.segmentAdd conn sessionId content now aiOutcome aiNow))
        c = observedBy g c) := by
  have hv : (validateSegment content).valid = false := validateSegment_invalid content hbad
  have hstep : step g (Request.segmentAdd conn sessionId content now aiOutcome aiNow) =
      emitTo g conn (GWEvent.errorEvent "CONTENT_VALIDATION_ERROR") := by
    simp only [step, hv]
    rfl
  refine ⟨hstep, by rw [hstep]; rfl, ?_, ?_⟩
  · rw [hstep, observedBy_emitTo]
    simp
  · intro c hne
    rw [hstep, observedBy_emitTo]
    rw [if_neg (fun hcc => hne hcc.symm)]
    simp

theorem invalid_content_rejected_witness :
    step initGW (Request.segmentAdd "c1" "id-0" "   " 5 none 0) =
      emitTo initGW "c1" (GWEvent.errorEvent "CONTENT_VALIDATION_ERROR") :=
  (invalid_content_rejected initGW "c1" "id-0" "   " 5 none 0 (Or.inl rfl)).1

/-- C3: a session:join for an existing session answers the joining connection
with a single session:updated event whose payload carries the entire current
segment list (exactly the M stored segments, unchanged by the join), in
chronological order. -/
theorem join_full_context (rs : List Request) (conn sessionId userName : String)
    (now : Int) (s : StorySession)
    (hs : (runGW initGW rs).manager.getSession sessionId = some s) :
    ∃ s2 : StorySession,
      observedBy
          (step (runGW initGW rs) (Request.sessionJoin conn sessionId userName now))
          conn =
        observedBy (runGW initGW rs) conn ++ [GWEvent.sessionUpdated s2] ∧
      s2.segments = s.segments ∧
      s2.segments.length = s.segments.length ∧
      List.Sorted segLE s2.segments := by
  have hinv := gwInv_runGW rs
  have hadd := getSession_addParticipant_self (runGW initGW rs).manager sessionId s
    { id := conn, name := displayName userName, joinedAt := now } now hs
  refine ⟨{ s with
    participants :=
      if s.participants.any (fun q =>
        q.name == (({ id := conn, name := displayName userName, joinedAt := now } :
          Participant)).name) then s.participants
      else s.participants ++
        [{ id := conn, name := displayName userName, joinedAt := now }],
    lastActivityAt := now }, ?_, rfl, rfl, hinv.1 sessionId s hs⟩
  simp only [step, hs, hadd]
  rw [observedBy_emitRoomExcept_self, observedBy_emitTo, if_pos rfl]
  rfl

theorem join_full_context_witness :
    ∃ s2 : StorySession,
      observedBy
          (step (runGW initGW [Request.sessionCreate "c1" "Test" none "User0" 100])
            (Request.sessionJoin "c2" "id-0" "User1" 150))
          "c2" =
        observedBy (runGW initGW [Request.sessionCreate "c1" "Test" none "User0" 100])
          "c2" ++ [GWEvent.sessionUpdated s2] ∧
      s2.segments =
        ({ id := "id-0", title := "Test", startingPrompt := none, participants := [{ id := "c1", name := "User0", joinedAt := 100 }], segments := [], createdAt := 100, lastActivityAt := 100 } : StorySession).segments ∧
      s2.segments.length =
        ({ id := "id-0", title := "Test", startingPrompt := none, participants := [{ id := "c1", name := "User0", joinedAt := 100 }], segments := [], createdAt := 100, lastActivityAt := 100 } : StorySession).segments.length ∧
      List.Sorted segLE s2.segments :=
  join_full_context [Request.sessionCreate "c1" "Test" none "User0" 100] "c2" "id-0"
    "User1" 150
    { id := "id-0", title := "Test", startingPrompt := none, participants := [{ id := "c1", name := "User0", joinedAt := 100 }], segments := [], createdAt := 100, lastActivityAt := 100 }
    (by rfl)

theorem step_segmentAdd_success_eq (g : GWState) (conn sessionId content : String)
    (now : Int) (aiOutcome : Option HorrorElement) (aiNow : Int) (s : StorySession)
    (hv : (validateSegment content).valid = true)
    (hs : g.manager.getSession sessionId = some s) :
    step g (Request.segmentAdd conn sessionId content now aiOutcome aiNow) =
      (let seg := mkUserSegment g conn content now
       let gBase :=
         emitTo
           (emitTo
             (emitRoom
               { g with
                 nextId := g.nextId + 1,
                 manager := g.manager.addSegment sessionId seg now }
               sessionId (GWEvent.segmentAdded seg))
             conn (GWEvent.segmentAdded seg))
           conn (GWEvent.segmentAcknowledged seg.id)
       if aiTriggerFires (addSegmentToLog s.segments seg) then
         let gTrig := { gBase with aiInvocations := gBase.aiInvocations + 1 }
         match aiOutcome with
         | some h =>
             let aiSeg := mkAiSegment (g.nextId + 1) h aiNow
             emitRoom
               { gTrig with
                 nextId := gTrig.nextId + 1,
                 manager := gTrig.manager.addSegment sessionId aiSeg aiNow }
               sessionId (GWEvent.segmentAdded aiSeg)
         | none => emitRoom gTrig sessionId (GWEvent.errorEvent "AI_GENERATION_ERROR")
       else gBase) := by
  have hvf : ¬((validateSegment content).valid = false) := by
    rw [hv]
    simp
  have hupd := getSession_addSegment_self g.manager sessionId s
    (mkUserSegment g conn content now) now hs
  simp only [step, emitTo, emitRoom, if_neg hvf, hs, hupd]

theorem observedBy_suffix (g g2 : GWState) (c : String) (tail : List (String × GWEvent))
    (h : g2.emits = g.emits ++ tail) :
    observedBy g2 c = observedBy g c ++ (tail.filter (fun e => e.1 == c)).map (fun e => e.2) := by
  simp [observedBy, h, List.filter_append]

theorem observedBy_emits_shape (g g2 : GWState) (c : String)
    (mid : List (String × GWEvent)) (l : List String) (ev : GWEvent)
    (h : g2.emits = g.emits ++ mid ++ l.map (fun mem => (mem, ev)))
    (hn : l.Nodup) (hc : c ∈ l) :
    ∃ pre, observedBy g2 c = observedBy g c ++ pre ++ [ev] := by
  refine ⟨(mid.filter (fun e => e.1 == c)).map (fun e => e.2), ?_⟩
  simp only [observedBy, h, List.filter_append, List.map_append, emitPairs_filter,
    List.count_eq_one_of_mem hn hc, List.replicate_one, List.append_assoc]

theorem roomMembers_nodup (rooms : List (String × String)) (sessionId : String)
    (h : rooms.Nodup) : (roomMembers rooms sessionId).Nodup := by
  rw [roomMembers]
  apply List.Nodup.map_on ?_ (h.filter _)
  intro x hx y hy hxy
  have hx2 := (List.mem_filter.mp hx).2
  have hy2 := (List.mem_filter.mp hy).2
  obtain ⟨x1, x2⟩ := x
  obtain ⟨y1, y2⟩ := y
  simp only at hxy hx2 hy2
  simp only [beq_iff_eq] at hx2 hy2
  simp [hxy, hx2, hy2]

/-- C4: in the segment:add success path, the external AI generator is invoked
exactly when the post-append count of user-typed segments is a positive
multiple of 3; on a successful generation the handler appends an `ai`-typed
segment carrying the generated content and broadcasts it as a segment:added
to every room member; on a failed generation it broadcasts
error AI_GENERATION_ERROR to every room member and the triggering user
segment stays in the log; without a trigger the log gains only the user
segment. -/
theorem ai_coauthor_trigger (rs : List Request) (conn sessionId content : String)
    (now : Int) (aiOutcome : Option HorrorElement) (aiNow : Int) (s : StorySession)
    (hv : (validateSegment content).valid = true)
    (hs : (runGW initGW rs).manager.getSession sessionId = some s) :
    let g := runGW initGW rs
    let g1 := step g (Request.segmentAdd conn sessionId content now aiOutcome aiNow)
    let seg := mkUserSegment g conn content now
    let newLog := addSegmentToLog s.segments seg
    (g1.aiInvocations = g.aiInvocations + (if aiTriggerFires newLog then 1 else 0)) ∧
    (aiTriggerFires newLog = true → aiOutcome = none →
      (g1.manager.getSession sessionId).map (fun x => x.segments) = some newLog ∧
      ∀ c ∈ roomMembers g.rooms sessionId, ∃ pre,
        observedBy g1 c =
          observedBy g c ++ pre ++ [GWEvent.errorEvent "AI_GENERATION_ERROR"]) ∧
    (∀ h : HorrorElement, aiTriggerFires newLog = true → aiOutcome = some h →
      (mkAiSegment (g.nextId + 1) h aiNow).contributorType = ContributorType.ai ∧
      (mkAiSegment (g.nextId + 1) h aiNow).content = h.content ∧
      (g1.manager.getSession sessionId).map (fun x => x.segments) =
        some (addSegmentToLog newLog (mkAiSegment (g.nextId + 1) h aiNow)) ∧
      ∀ c ∈ roomMembers g.rooms sessionId, ∃ pre,
        observedBy g1 c =
          observedBy g c ++ pre ++
            [GWEvent.segmentAdded (mkAiSegment (g.nextId + 1) h aiNow)]) ∧
    (aiTriggerFires newLog = false →
      (g1.manager.getSession sessionId).map (fun x => x.segments) = some newLog) := by
  intro g g1 seg newLog
  have hinv := gwInv_runGW rs
  have hnodup : (roomMembers g.rooms sessionId).Nodup :=
    roomMembers_nodup g.rooms sessionId hinv.2
  have heq := step_segmentAdd_success_eq g conn sessionId content now aiOutcome aiNow s
    hv hs
  have hupd1 := getSession_addSegment_self g.manager sessionId s seg now hs
  have hg1 : g1 = step g (Request.segmentAdd conn sessionId content now aiOutcome aiNow) :=
    rfl
  rw [heq] at hg1
  cases htrig : aiTriggerFires newLog with
  | false =>
      rw [if_neg (by rw [htrig]; simp)] at hg1
      refine ⟨?_, ?_, ?_, ?_⟩
      · rw [hg1]
        rfl
      · intro hcon
        exact absurd hcon (by simp)
      · intro h hcon
        exact absurd hcon (by simp)
      · intro _
        rw [hg1]
        show ((g.manager.addSegment sessionId seg now).getSession sessionId).map
          (fun x => x.segments) = some newLog
        rw [hupd1]
        rfl
  | true =>
      rw [if_pos (by rw [htrig])] at hg1
      cases aiOutcome with
      | none =>
          refine ⟨?_, ?_, ?_, ?_⟩
          · rw [hg1]
            rfl
          · intro _ _
            constructor
            · rw [hg1]
              show ((g.manager.addSegment sessionId seg now).getSession sessionId).map
                (fun x => x.segments) = some newLog
              rw [hupd1]
              rfl
            · intro c hc
              refine observedBy_emits_shape g g1 c
                ((roomMembers g.rooms sessionId).map
                    (fun mem => (mem, GWEvent.segmentAdded seg)) ++
                  [(conn, GWEvent.segmentAdded seg),
                    (conn, GWEvent.segmentAcknowledged seg.id)])
                (roomMembers g.rooms sessionId)
                (GWEvent.errorEvent "AI_GENERATION_ERROR") ?_ hnodup hc
              simp [hg1, emitTo, emitRoom, List.append_assoc]
          · intro h _ hcon
            exact absurd hcon (by simp)
          · intro hcon
            exact absurd hcon (by simp)
      | some h =>
          refine ⟨?_, ?_, ?_, ?_⟩
          · rw [hg1]
            rfl
          · intro _ hcon
            exact absurd hcon (by simp)
          · intro h2 _ hcon
            obtain rfl : h = h2 := by
              have := hcon
              simpa using this
            refine ⟨rfl, rfl, ?_, ?_⟩
            · rw [hg1]
              show (((g.manager.addSegment sessionId seg now).addSegment sessionId
                  (mkAiSegment (g.nextId + 1) h aiNow) aiNow).getSession sessionId).map
                (fun x => x.segments) =
                some (addSegmentToLog newLog (mkAiSegment (g.nextId + 1) h aiNow))
              rw [getSession_addSegment_self _ sessionId
                { s with segments := addSegmentToLog s.segments seg, lastActivityAt := now }
                (mkAiSegment (g.nextId + 1) h aiNow) aiNow hupd1]
              rfl
            · intro c hc
              refine observedBy_emits_shape g g1 c
                ((roomMembers g.rooms sessionId).map
                    (fun mem => (mem, GWEvent.segmentAdded seg)) ++
                  [(conn, GWEvent.segmentAdded seg),
                    (conn, GWEvent.segmentAcknowledged seg.id)])
                (roomMembers g.rooms sessionId)
                (GWEvent.segmentAdded (mkAiSegment (g.nextId + 1) h aiNow)) ?_ hnodup hc
              simp [hg1, emitTo, emitRoom, List.append_assoc]
          · intro hcon
            exact absurd hcon (by simp)

theorem ai_coauthor_trigger_witness :
    (step
        (runGW initGW
          [Request.sessionCreate "c1" "Test" none "User0" 100,
           Request.segmentAdd "c1" "id-0" "A" 200 none 0,
           Request.segmentAdd "c1" "id-0" "B" 300 none 0])
        (Request.segmentAdd "c1" "id-0" "C" 400
          (some { content := "The shadow moved.", intensity := 5, tags := ["supernatural"] })
          450)).aiInvocations =
      (runGW initGW
        [Request.sessionCreate "c1" "Test" none "User0" 100,
         Request.segmentAdd "c1" "id-0" "A" 200 none 0,
         Request.segmentAdd "c1" "id-0" "B" 300 none 0]).aiInvocations +
        (if aiTriggerFires
            (addSegmentToLog
              ({ id := "id-0", title := "Test", startingPrompt := none, participants := [{ id := "c1", name := "User0", joinedAt := 100 }], segments := [{ id := "id-1", content := "A", contributorId := "c1", contributorType := ContributorType.user, timestamp := 200, moodTags := [] }, { id := "id-2", content := "B", contributorId := "c1", contributorType := ContributorType.user, timestamp := 300, moodTags := [] }], createdAt := 100, lastActivityAt := 300 } : StorySession).segments
              (mkUserSegment
                (runGW initGW
                  [Request.sessionCreate "c1" "Test" none "User0" 100,
                   Request.segmentAdd "c1" "id-0" "A" 200 none 0,
                   Request.segmentAdd "c1" "id-0" "B" 300 none 0])
                "c1" "C" 400))
          then 1 else 0) :=
  (ai_coauthor_trigger
    [Request.sessionCreate "c1" "Test" none "User0" 100,
     Request.segmentAdd "c1" "id-0" "A" 200 none 0,
     Request.segmentAdd "c1" "id-0" "B" 300 none 0]
    "c1" "id-0" "C" 400
    (some { content := "The shadow moved.", intensity := 5, tags := ["supernatural"] })
    450
    { id := "id-0", title := "Test", startingPrompt := none, participants := [{ id := "c1", name := "User0", joinedAt := 100 }], segments := [{ id := "id-1", content := "A", contributorId := "c1", contributorType := ContributorType.user, timestamp := 200, moodTags := [] }, { id := "id-2", content := "B", contributorId := "c1", contributorType := ContributorType.user, timestamp := 300, moodTags := [] }], createdAt := 100, lastActivityAt := 300 }
    (by decide) (by decide)).1

theorem observedBy_delta (g g2 : GWState) (sessionId c : String) (evA : GWEvent)
    (rest2 : List (String × GWEvent))
    (h : g2.emits =
      g.emits ++ (roomMembers g.rooms sessionId).map (fun mem => (mem, evA)) ++ rest2)
    (hn : (roomMembers g.rooms sessionId).Nodup)
    (hc : c ∈ roomMembers g.rooms sessionId) :
    observedBy g2 c =
      observedBy g c ++ evA :: ((rest2.filter (fun e => e.1 == c)).map (fun e => e.2)) := by
  simp only [observedBy, h, List.filter_append, List.map_append, emitPairs_filter,
    List.count_eq_one_of_mem hn hc, List.replicate_one, List.append_assoc,
    List.singleton_append]

theorem filterMap_pairs_count (conn c : String) (evA ack : GWEvent)
    (aiTail : List (String × GWEvent)) (hackne : ack ≠ evA)
    (hai : ∀ x ∈ aiTail, x.2 ≠ evA) :
    (((([(conn, evA), (conn, ack)] ++ aiTail).filter (fun e => e.1 == c)).map
      (fun e => e.2)).count evA) = (if c = conn then 1 else 0) := by
  rw [List.filter_append, List.map_append, List.count_append]
  have h2 : ((aiTail.filter (fun e => e.1 == c)).map (fun e => e.2)).count evA = 0 := by
    rw [List.count_eq_zero]
    intro hmem
    obtain ⟨x, hx, hx2⟩ := List.mem_map.mp hmem
    exact hai x (List.mem_filter.mp hx).1 hx2
  rw [h2]
  by_cases hc2 : conn = c
  · subst hc2
    simp [List.filter_cons, List.count_cons, hackne]
  · have hc3 : ¬(c = conn) := fun hcc => hc2 hcc.symm
    simp [List.filter_cons, hc2, hc3]

/-- C1 counterexample: in the two-client scenario (c1 creates "Test" and adds
"A", c2 joins before any segments and adds "B"), the creating client does
not observe exactly one segment:added per segment: it receives its own
segment "A" twice (room broadcast plus the direct backup emit), so its
segment:added contents are ["A", "A", "B"], not ["A", "B"]. -/
theorem duplicate_broadcast_to_sender :
    segAddedContents (observedBy (runGW initGW twoClientTrace) "c1") = ["A", "A", "B"] ∧
    segAddedContents (observedBy (runGW initGW twoClientTrace) "c1") ≠ ["A", "B"] := by
  constructor
  · decide
  · decide

/-- C1 amended: a successful segment:add reaches every connection joined to
the session's room — each member's observation sequence is extended, after
everything it had already observed, with a segment:added for the appended
segment; the sender receives that event exactly twice (room broadcast plus
the direct backup emit, followed by the acknowledgment) while every other
member receives it exactly once. In the two-client scenario the creating
client therefore observes segment:added contents ["A", "A", "B"] and the
second client ["A", "B", "B"]. -/
theorem broadcast_with_sender_backup (rs : List Request)
    (conn sessionId content : String) (now : Int) (aiOutcome : Option HorrorElement)
    (aiNow : Int) (s : StorySession)
    (hv : (validateSegment content).valid = true)
    (hs : (runGW initGW rs).manager.getSession sessionId = some s) :
    let g := runGW initGW rs
    let g1 := step g (Request.segmentAdd conn sessionId content now aiOutcome aiNow)
    let seg := mkUserSegment g conn content now
    (∀ c ∈ roomMembers g.rooms sessionId, ∃ rest,
      observedBy g1 c = observedBy g c ++ GWEvent.segmentAdded seg :: rest ∧
      rest.count (GWEvent.segmentAdded seg) = (if c = conn then 1 else 0)) ∧
    (conn ∈ roomMembers g.rooms sessionId → ∃ rest,
      observedBy g1 conn =
        observedBy g conn ++ GWEvent.segmentAdded seg :: GWEvent.segmentAdded seg ::
          GWEvent.segmentAcknowledged seg.id :: rest) ∧
    segAddedContents (observedBy (runGW initGW twoClientTrace) "c1") = ["A", "A", "B"] ∧
    segAddedContents (observedBy (runGW initGW twoClientTrace) "c2") = ["A", "B", "B"] := by
  intro g g1 seg
  have hinv := gwInv_runGW rs
  have hnodup : (roomMembers g.rooms sessionId).Nodup :=
    roomMembers_nodup g.rooms sessionId hinv.2
  have heq := step_segmentAdd_success_eq g conn sessionId content now aiOutcome aiNow s
    hv hs
  have hg1 : g1 = step g (Request.segmentAdd conn sessionId content now aiOutcome aiNow) :=
    rfl
  rw [heq] at hg1
  have hackne : GWEvent.segmentAcknowledged seg.id ≠ GWEvent.segmentAdded seg := by
    simp
  have main : ∃ aiTail : List (String × GWEvent),
      (∀ x ∈ aiTail, x.2 ≠ GWEvent.segmentAdded seg) ∧
      g1.emits =
        g.emits ++
          (roomMembers g.rooms sessionId).map (fun mem => (mem, GWEvent.segmentAdded seg)) ++
          ([(conn, GWEvent.segmentAdded seg),
            (conn, GWEvent.segmentAcknowledged seg.id)] ++ aiTail) := by
    cases htrig : aiTriggerFires (addSegmentToLog s.segments seg) with
    | false =>
        rw [if_neg (by rw [htrig]; simp)] at hg1
        refine ⟨[], by simp, ?_⟩
        simp [hg1, emitTo, emitRoom, List.append_assoc]
    | true =>
        rw [if_pos (by rw [htrig])] at hg1
        cases aiOutcome with
        | none =>
            refine ⟨(roomMembers g.rooms sessionId).map
              (fun mem => (mem, GWEvent.errorEvent "AI_GENERATION_ERROR")), ?_, ?_⟩
            · intro x hx
              obtain ⟨mem, _, rfl⟩ := List.mem_map.mp hx
              simp
            · simp [hg1, emitTo, emitRoom, List.append_assoc]
        | some h =>
            refine ⟨(roomMembers g.rooms sessionId).map
              (fun mem =>
                (mem, GWEvent.segmentAdded (mkAiSegment (g.nextId + 1) h aiNow))), ?_, ?_⟩
            · intro x hx
              obtain ⟨mem, _, rfl⟩ := List.mem_map.mp hx
              intro hcon
              injection hcon with h2
              have hct := congrArg StorySegment.contributorType h2
              have hct2 : ContributorType.ai = ContributorType.user := hct
              exact ContributorType.noConfusion hct2
            · simp [hg1, emitTo, emitRoom, List.append_assoc]
  obtain ⟨aiTail, haiTail, hemits⟩ := main
  refine ⟨?_, ?_, by decide, by decide⟩
  · intro c hc
    refine ⟨((([(conn, GWEvent.segmentAdded seg),
        (conn, GWEvent.segmentAcknowledged seg.id)] ++ aiTail).filter
          (fun e => e.1 == c)).map (fun e => e.2)), ?_, ?_⟩
    · exact observedBy_delta g g1 sessionId c (GWEvent.segmentAdded seg) _ hemits hnodup hc
    · exact filterMap_pairs_count conn c (GWEvent.segmentAdded seg)
        (GWEvent.segmentAcknowledged seg.id) aiTail hackne haiTail
  · intro hconn
    have hshape := observedBy_delta g g1 sessionId conn (GWEvent.segmentAdded seg) _
      hemits hnodup hconn
    refine ⟨(aiTail.filter (fun e => e.1 == conn)).map (fun e => e.2), ?_⟩
    rw [hshape]
    simp [List.filter_cons]

theorem broadcast_with_sender_backup_witness :
    ∃ rest,
      observedBy
          (step (runGW initGW [Request.sessionCreate "c1" "Test" none "User0" 100])
            (Request.segmentAdd "c1" "id-0" "A" 200 none 0)) "c1" =
        observedBy (runGW initGW [Request.sessionCreate "c1" "Test" none "User0" 100])
            "c1" ++
          GWEvent.segmentAdded
            (mkUserSegment (runGW initGW [Request.sessionCreate "c1" "Test" none "User0" 100])
              "c1" "A" 200) ::
          GWEvent.segmentAdded
            (mkUserSegment (runGW initGW [Request.sessionCreate "c1" "Test" none "User0" 100])
              "c1" "A" 200) ::
          GWEvent.segmentAcknowledged
            (mkUserSegment (runGW initGW [Request.sessionCreate "c1" "Test" none "User0" 100])
              "c1" "A" 200).id :: rest :=
  (broadcast_with_sender_backup [Request.sessionCreate "c1" "Test" none "User0" 100]
    "c1" "id-0" "A" 200 none 0
    { id := "id-0", title := "Test", startingPrompt := none, participants := [{ id := "c1", name := "User0", joinedAt := 100 }], segments := [], createdAt := 100, lastActivityAt := 100 }
    (by decide) (by decide)).2.1 (by decide)

end GhostStory
